import Mathlib

/-!
Shallow embedding of the ATP-dashboard data-ingestion pipeline
(`ingest` script and `addCommonNames` script) and proofs about it.

Modelling conventions:
- JS numbers are modelled as `Int` (every number this pipeline computes is
  integral); `null`/`undefined` are modelled as `Option.none`.
- JS `Number()` and `parseInt()` are modelled on the decimal-integer strings
  this pipeline feeds them; fractional, exponent and hex forms are outside
  the model.
- `Map` objects are modelled as insertion-ordered association lists.
- Date arithmetic assumes a UTC environment (so `toISOString` performs no
  timezone shift); an Invalid Date, whose `toISOString()` throws a
  `RangeError`, is modelled as `Option.none`/`Except.error`.
- Strings are compared by code points; `charCodeAt` is modelled as the code
  point (identical on BMP strings).
-/

set_option linter.unusedVariables false
set_option maxHeartbeats 1000000
set_option maxRecDepth 100000

namespace ATP

/-! ## Basic JS string/number primitives -/

/-- JS `ToInt32`: wrap an integer to the signed 32-bit range. -/
def toInt32 (n : Int) : Int := (n + 2 ^ 31) % 2 ^ 32 - 2 ^ 31

/-- JS `String.prototype.trim` (kernel-reducible model over the char
list). -/
def jsTrim (s : String) : String :=
  ⟨((s.data.dropWhile Char.isWhitespace).reverse.dropWhile Char.isWhitespace).reverse⟩

/-- JS `toUpperCase` on the ASCII strings this pipeline handles. -/
def jsToUpper (s : String) : String := ⟨s.data.map Char.toUpper⟩

/-- JS `toLowerCase` on the ASCII strings this pipeline handles. -/
def jsToLower (s : String) : String := ⟨s.data.map Char.toLower⟩

/-- JS `split(sep)` for a single-character separator, over a char list. -/
def splitOnChar (sep : Char) : List Char → List (List Char)
  | [] => [[]]
  | c :: rest =>
    let r := splitOnChar sep rest
    if c = sep then [] :: r
    else (c :: r.headD []) :: r.tail

/-- JS `split(sep)` for a single-character separator. -/
def jsSplit (s : String) (sep : Char) : List String :=
  (splitOnChar sep s.data).map String.mk

/-- JS `includes(c)` for a single character. -/
def strContainsChar (s : String) (c : Char) : Bool := s.data.contains c

/-- The first `n` UTF-16 units of a string (`substring(0, n)`); code points
coincide with units on the ASCII strings this is applied to. -/
def takeChars (s : String) (n : Nat) : String := ⟨s.data.take n⟩

/-- JS `parseInt(s)` on the (radix-10) strings this pipeline feeds it:
skip leading whitespace, optional sign, then the longest prefix of decimal
digits; `none` models `NaN`. -/
def parseIntJS (s : String) : Option Int :=
  let cs := s.data.dropWhile Char.isWhitespace
  let sign : Int := if cs.headD ' ' = '-' then -1 else 1
  let rest := if cs.headD ' ' = '-' ∨ cs.headD ' ' = '+' then cs.tail else cs
  let digits := rest.takeWhile Char.isDigit
  if digits.isEmpty then none
  else some (sign * ((digits.foldl (fun a c => a * 10 + (c.toNat - 48)) 0 : Nat) : Int))

/-- `parseInt` applied to a possibly-`undefined` argument
(`parseInt(undefined)` is `NaN`). -/
def parseIntJSOpt (s : Option String) : Option Int :=
  match s with
  | some s => parseIntJS s
  | none => none

/-- JS `Number()` on the strings this pipeline feeds it: an optionally
signed string of decimal digits parses to its integer value, anything else
is NaN (`none`). -/
def jsNumber (s : String) : Option Int :=
  let cs := s.data
  let sign : Int := if cs.headD ' ' = '-' then -1 else 1
  let rest := if cs.headD ' ' = '-' ∨ cs.headD ' ' = '+' then cs.tail else cs
  if rest ≠ [] ∧ rest.all Char.isDigit then
    some (sign * ((rest.foldl (fun a c => a * 10 + (c.toNat - 48)) 0 : Nat) : Int))
  else none

/-- JS `String.prototype.includes` for a fixed pattern. -/
def strIncludes (s pat : String) : Bool :=
  s.data.tails.any fun t => pat.data.isPrefixOf t

/-! ## Normalizer (`normalizeValue`, `normalizeNumber`, `parseDate`, …) -/

/-- `normalizeValue`: a falsy (empty) value, an all-whitespace value, or a
case-insensitive `N/A` becomes absent; otherwise the trimmed value. -/
def normalizeValue (value : String) : Option String :=
  if value = "" ∨ jsTrim value = "" ∨ jsToUpper (jsTrim value) = "N/A" then none
  else some (jsTrim value)

/-- `normalizeNumber`: absent if unparseable as a number. -/
def normalizeNumber (value : String) : Option Int :=
  match normalizeValue value with
  | none => none
  | some s => jsNumber s

/-- Days since 1970-01-01 of the first day of month `m` (1-based) of year
`y` in the proleptic Gregorian calendar, plus `d - 1` for the 1-based day:
the civil-from-days computation performed by the JS `Date` constructor
(`MakeDay`). -/
def daysFromCivil (y m d : Int) : Int :=
  let y' := if m ≤ 2 then y - 1 else y
  let era := y'.fdiv 400
  let yoe := y' - era * 400
  let mp := if m > 2 then m - 3 else m + 9
  let doy := (153 * mp + 2).fdiv 5 + d - 1
  let doe := yoe * 365 + yoe.fdiv 4 - yoe.fdiv 100 + doy
  era * 146097 + doe - 719468

/-- Inverse of `daysFromCivil`: the `(year, month, day)` triple of a day
number, as exposed by `toISOString` in a UTC environment. -/
def civilFromDays (z : Int) : Int × Int × Int :=
  let z' := z + 719468
  let era := z'.fdiv 146097
  let doe := z' - era * 146097
  let yoe := (doe - doe.fdiv 1460 + doe.fdiv 36524 - doe.fdiv 146096).fdiv 365
  let y := yoe + era * 400
  let doy := doe - (365 * yoe + yoe.fdiv 4 - yoe.fdiv 100)
  let mp := (5 * doy + 2).fdiv 153
  let d := doy - (153 * mp + 2).fdiv 5 + 1
  let m := if mp < 10 then mp + 3 else mp - 9
  (if m ≤ 2 then y + 1 else y, m, d)

/-- Zero-padded decimal rendering of a date component. -/
def padNum (n : Int) (w : Nat) : String :=
  let s := toString n.natAbs
  let padded := String.mk (List.replicate (w - s.length) '0') ++ s
  if n < 0 then "-" ++ padded else padded

/-- The year field of an ISO date string (expanded ± form outside 0..9999,
as `toISOString` renders it). -/
def isoYear (y : Int) : String :=
  if 0 ≤ y ∧ y ≤ 9999 then padNum y 4
  else if y < 0 then "-" ++ padNum y.natAbs 6
  else "+" ++ padNum y 6

/-- `YYYY-MM-DD` rendering of a civil date. -/
def isoDate (y m d : Int) : String :=
  isoYear y ++ "-" ++ padNum m 2 ++ "-" ++ padNum d 2

/-- `new Date(y, m, d).toISOString().split('T')[0]` in a UTC environment,
where `m` is the 0-based month index and any argument may be NaN (`none`).
`none` models an Invalid Date (NaN argument, or time value out of the
±100 000 000-day range), whose `toISOString()` would throw. The year
argument is adjusted by +1900 when it lies in 0..99, as the `Date`
constructor does. -/
def jsDateToISO (y m d : Option Int) : Option String :=
  match y, m, d with
  | some y, some m, some d =>
    let yr := if 0 ≤ y ∧ y ≤ 99 then 1900 + y else y
    let ym := yr + m.fdiv 12
    let mn := m.emod 12
    let days := daysFromCivil ym (mn + 1) 1 + (d - 1)
    if days.natAbs ≤ 100000000 then
      some (isoDate (civilFromDays days).1 (civilFromDays days).2.1 (civilFromDays days).2.2)
    else none
  | _, _, _ => none

/-- `parseDate`: `''` is the in-band "absent" value returned for an
unrecognized shape (after a logged warning); `Except.error ()` models the
`RangeError` thrown by `toISOString()` on an Invalid Date. The dash branch
is entered when the value contains `-` and the first dash-component has
length 4; otherwise control falls through to the slash branch, entered when
the value splits into exactly three `/`-components (2-digit years get a
`20` prefix there). -/
def parseDate (dateStr : String) : Except Unit String :=
  match normalizeValue dateStr with
  | none => .ok ""
  | some normalized =>
    let dashParts := jsSplit normalized '-'
    if strContainsChar normalized '-' ∧ (dashParts.headD "").length = 4 then
      match jsDateToISO (parseIntJS (dashParts.headD ""))
          ((parseIntJSOpt dashParts[1]?).map (· - 1))
          (parseIntJSOpt dashParts[2]?) with
      | some iso => .ok iso
      | none => .error ()
    else
      let parts := jsSplit normalized '/'
      if parts.length = 3 then
        let month := parts.headD ""
        let day := (parts[1]?).getD ""
        let year := (parts[2]?).getD ""
        let fullYear := if year.length = 2 then "20" ++ year else year
        match jsDateToISO (parseIntJS fullYear) ((parseIntJS month).map (· - 1))
            (parseIntJS day) with
        | some iso => .ok iso
        | none => .error ()
      else .ok ""

/-- `\w` of a JS regex: ASCII letters, digits and underscore. -/
def isWordChar (c : Char) : Bool := c.isAlphanum || c = '_'

/-- Collapse every maximal run of `p`-characters to the single character
`r`. Used for the whitespace-run and hyphen-run replacements of `slugify`. -/
def collapseRuns (p : Char → Bool) (r : Char) : List Char → List Char
  | [] => []
  | c :: cs =>
    if p c then
      match cs with
      | d :: _ => if p d then collapseRuns p r cs else r :: collapseRuns p r cs
      | [] => [r]
    else c :: collapseRuns p r cs

/-- `slugify`: lowercase, strip periods, strip characters outside
`\w\s-`, collapse whitespace runs to single hyphens, collapse hyphen runs,
trim. -/
def slugify (text : String) : String :=
  let cs := (jsToLower text).data
  let cs := cs.filter (· ≠ '.')
  let cs := cs.filter fun c => isWordChar c || c.isWhitespace || c = '-'
  let cs := collapseRuns Char.isWhitespace '-' cs
  let cs := collapseRuns (· = '-') '-' cs
  String.mk ((cs.dropWhile Char.isWhitespace).reverse.dropWhile Char.isWhitespace).reverse

/-! ## Data model -/

/-- Round vocabulary. -/
inductive Round where
  | «1R» | «2R» | «3R» | «4R» | QF | SF | F | RR | Q1 | Q2 | Q3
  deriving DecidableEq, Repr

/-- The string each `Round` value denotes in the TS source. -/
def Round.toStr : Round → String
  | .«1R» => "1R"
  | .«2R» => "2R"
  | .«3R» => "3R"
  | .«4R» => "4R"
  | .QF => "QF"
  | .SF => "SF"
  | .F => "F"
  | .RR => "RR"
  | .Q1 => "Q1"
  | .Q2 => "Q2"
  | .Q3 => "Q3"

inductive Series where
  | GrandSlam | Masters | ATP500 | ATP250
  deriving DecidableEq, Repr

inductive Court where
  | Indoor | Outdoor
  deriving DecidableEq, Repr

inductive Surface where
  | Hard | Clay | Grass | Carpet
  deriving DecidableEq, Repr

structure Player where
  id : String
  name : String
  deriving DecidableEq, Repr

structure Tournament where
  id : String
  year : Int
  name : String
  commonName : Option String
  location : String
  series : Series
  court : Court
  surface : Surface
  deriving DecidableEq, Repr

structure Match where
  id : String
  tournamentId : String
  date : String
  round : Round
  bestOf : Int
  winnerId : String
  loserId : String
  wRank : Option Int
  lRank : Option Int
  wPts : Option Int
  lPts : Option Int
  w : List Int
  l : List Int
  wsets : Int
  lsets : Int
  comment : Option String
  deriving DecidableEq, Repr

structure Derived where
  matchId : String
  rankDiff : Option Int
  ptsDiff : Option Int
  totalGames : Option Int
  setsPlayed : Int
  straightSets : Bool
  hasTiebreak : Bool
  upset : Option Bool
  deriving DecidableEq, Repr

/-- Attributes carried by a bracket node. -/
structure BracketAttributes where
  round : Round
  winnerName : String
  loserName : String
  score : String
  deriving DecidableEq, Repr

/-- The bracket tree: `{name, attributes, children[]}`. -/
inductive BracketNode where
  | mk (name : String) (attributes : BracketAttributes) (children : List BracketNode)
  deriving Repr

def BracketNode.name : BracketNode → String
  | .mk n _ _ => n

def BracketNode.attributes : BracketNode → BracketAttributes
  | .mk _ a _ => a

def BracketNode.children : BracketNode → List BracketNode
  | .mk _ _ c => c

/-! ## Categorical normalizers -/

def normalizeRound (round : String) : Round :=
  let n := jsTrim (jsToLower round)
  if strIncludes n "1st round" || n = "1r" then .«1R»
  else if strIncludes n "2nd round" || n = "2r" then .«2R»
  else if strIncludes n "3rd round" || n = "3r" then .«3R»
  else if strIncludes n "4th round" || n = "4r" then .«4R»
  else if strIncludes n "quarterfinal" || n = "qf" then .QF
  else if strIncludes n "semifinal" || n = "sf" then .SF
  else if strIncludes n "the final" || (strIncludes n "final" && !strIncludes n "semifinal") then .F
  else if strIncludes n "round robin" || n = "rr" then .RR
  else if n = "q1" || strIncludes n "qualifying 1" then .Q1
  else if n = "q2" || strIncludes n "qualifying 2" then .Q2
  else if n = "q3" || strIncludes n "qualifying 3" then .Q3
  else .«1R»

def normalizeSeries (series : String) : Series :=
  let n := jsTrim (jsToUpper series)
  if strIncludes n "GRAND SLAM" then .GrandSlam
  else if strIncludes n "MASTERS" then .Masters
  else if strIncludes n "ATP500" then .ATP500
  else if strIncludes n "ATP250" then .ATP250
  else .ATP250

def normalizeCourt (court : String) : Court :=
  let n := jsTrim (jsToUpper court)
  if strIncludes n "INDOOR" then .Indoor else .Outdoor

def normalizeSurface (surface : String) : Surface :=
  let n := jsTrim (jsToUpper surface)
  if strIncludes n "HARD" then .Hard
  else if strIncludes n "CLAY" then .Clay
  else if strIncludes n "GRASS" then .Grass
  else if strIncludes n "CARPET" then .Carpet
  else .Hard

/-! ## Identifier generation -/

/-- Insertion-ordered `Map.set`. -/
def setEntry (l : List (String × Nat)) (k : String) (v : Nat) : List (String × Nat) :=
  match l with
  | [] => [(k, v)]
  | (k', v') :: rest => if k' = k then (k, v) :: rest else (k', v') :: setEntry rest k v

/-- `createPlayerID`: first use of a slug yields the bare slug; each later
use yields `slug-N` with the per-slug counter incremented. Returns the id
together with the updated counter map. -/
def createPlayerID (name : String) (existingIDs : List (String × Nat)) :
    String × List (String × Nat) :=
  let base := slugify name
  match existingIDs.lookup base with
  | none => (base, setEntry existingIDs base 0)
  | some c => (base ++ "-" ++ toString (c + 1), setEntry existingIDs base (c + 1))

/-- One step of the rolling hash: `hash = ((hash << 5) - hash) + charCode`
followed by `hash = hash & hash` (a `ToInt32` coercion); `<< 5` is a 32-bit
shift, i.e. multiply by 32 and wrap. -/
def hashStep (h : Int) (c : Nat) : Int := toInt32 (toInt32 (h * 32) - h + c)

/-- The rolling hash of the ID generators over a string's char codes. -/
def hashString (s : String) : Int := s.toList.foldl (fun h c => hashStep h c.toNat) 0

/-- `createTournamentID`: tag `t` plus `Math.abs` of the 32-bit hash of
`` `${year}-${tournament}-${location}` ``. -/
def createTournamentID (year : Int) (tournament location : String) : String :=
  "t" ++ toString (hashString (toString year ++ "-" ++ tournament ++ "-" ++ location)).natAbs

/-- `createMatchID`: tag `m` plus `Math.abs` of the 32-bit hash of
`` `${tournamentId}-${date}-${round}-${winnerId}-${loserId}` ``. -/
def createMatchID (tournamentId date : String) (round : Round)
    (winnerId loserId : String) : String :=
  "m" ++ toString (hashString (tournamentId ++ "-" ++ date ++ "-" ++ round.toStr ++ "-" ++
    winnerId ++ "-" ++ loserId)).natAbs

/-! ## Derived computation -/

/-- JS truthiness of a number-or-undefined: both `0` and `undefined` are
falsy. -/
def truthyNum (v : Option Int) : Bool :=
  match v with
  | some n => n != 0
  | none => false

/-- `computeDerived`. The `wRank && lRank` style guards use JS truthiness
(`truthyNum`), not mere presence. -/
def computeDerived (m : Match) : Derived :=
  let rankDiff := if truthyNum m.wRank && truthyNum m.lRank then
      some (m.wRank.getD 0 - m.lRank.getD 0) else none
  let ptsDiff := if truthyNum m.wPts && truthyNum m.lPts then
      some (m.wPts.getD 0 - m.lPts.getD 0) else none
  let totalGames := m.w.enum.foldl (fun sum p => sum + p.2 + (m.l.get? p.1).getD 0) 0
  let setsPlayed := m.wsets + m.lsets
  let straightSets := m.lsets = 0
  let hasTiebreak := m.w.enum.any fun p =>
    let l := (m.l.get? p.1).getD 0
    (p.2 == 7 && l ≥ 5) || (l == 7 && p.2 ≥ 5)
  let upset := if truthyNum m.wRank && truthyNum m.lRank then
      some (decide (m.lRank.getD 0 < m.wRank.getD 0)) else none
  { matchId := m.id
    rankDiff := rankDiff
    ptsDiff := ptsDiff
    totalGames := if totalGames > 0 then some totalGames else none
    setsPlayed := setsPlayed
    straightSets := straightSets
    hasTiebreak := hasTiebreak
    upset := upset }

/-! ## Bracket reconstruction -/

/-- The `roundPrecedence` map: for each round, the round that feeds into
it. Round Robin and `Q1` have no entry. -/
def roundPrecedence : Round → Option Round
  | .F => some .SF
  | .SF => some .QF
  | .QF => some .«4R»
  | .«4R» => some .«3R»
  | .«3R» => some .«2R»
  | .«2R» => some .«1R»
  | .«1R» => some .Q3
  | .Q3 => some .Q2
  | .Q2 => some .Q1
  | _ => none

/-- Position of a round in the precedence chain; the termination measure of
the recursive bracket construction. -/
def roundDepth : Round → Nat
  | .Q1 => 0
  | .Q2 => 1
  | .Q3 => 2
  | .«1R» => 3
  | .«2R» => 4
  | .«3R» => 5
  | .«4R» => 6
  | .QF => 7
  | .SF => 8
  | .F => 9
  | .RR => 0

theorem roundPrecedence_lt {r r' : Round} (h : roundPrecedence r = some r') :
    roundDepth r' < roundDepth r := by
  cases r <;> cases r' <;> simp_all [roundPrecedence, roundDepth]

/-- `playerMap.get(id)?.name || 'Unknown'` — the `||` also replaces an
empty name by `'Unknown'` (JS falsiness of the empty string). -/
def lookupPlayerName (playerMap : List (String × Player)) (id : String) : String :=
  match playerMap.lookup id with
  | some p => if p.name = "" then "Unknown" else p.name
  | none => "Unknown"

/-- `formatScore`: per-set `w-l` pairs joined by spaces, with a `" (RET)"`
suffix when the comment is `'Retired'`; a missing `l[i]` prints as
`undefined` exactly as JS interpolation would. -/
def formatScore (w l : List Int) (comment : Option String) : String :=
  let body := String.intercalate " " <| w.enum.map fun p =>
    toString p.2 ++ "-" ++ (match l.get? p.1 with
      | some x => toString x
      | none => "undefined")
  if comment = some "Retired" then body ++ " (RET)" else body

/-- Predicate of the `Array.find` calls: a match at `childRound` whose
winner is `pid`. -/
def prevMatchPred (childRound : Round) (pid : String) (m : Match) : Bool :=
  m.round == childRound && m.winnerId == pid

/-- `findChildrenForMatch`: builds the bracket node for `currentMatch`,
recursing into the first match at the preceding round won by each of the
two participants; a side with no such match becomes a BYE leaf, and a match
whose round has no precedence entry becomes a leaf. -/
def findChildrenForMatch (currentMatch : Match) (allTournamentMatches : List Match)
    (playerMap : List (String × Player)) : BracketNode :=
  let winnerName := lookupPlayerName playerMap currentMatch.winnerId
  let loserName := lookupPlayerName playerMap currentMatch.loserId
  match hcr : roundPrecedence currentMatch.round with
  | none =>
      .mk (winnerName ++ " d. " ++ loserName)
        ⟨currentMatch.round, winnerName, loserName,
          formatScore currentMatch.w currentMatch.l currentMatch.comment⟩
        []
  | some childRound =>
      let child1 : BracketNode :=
        match hw : allTournamentMatches.find? (prevMatchPred childRound currentMatch.winnerId) with
        | some winnerPrevMatch =>
            findChildrenForMatch winnerPrevMatch allTournamentMatches playerMap
        | none =>
            .mk winnerName ⟨childRound, winnerName, "BYE", "BYE"⟩ []
      let child2 : BracketNode :=
        match hl : allTournamentMatches.find? (prevMatchPred childRound currentMatch.loserId) with
        | some loserPrevMatch =>
            findChildrenForMatch loserPrevMatch allTournamentMatches playerMap
        | none =>
            .mk loserName ⟨childRound, loserName, "BYE", "BYE"⟩ []
      .mk (winnerName ++ " d. " ++ loserName)
        ⟨currentMatch.round, winnerName, loserName,
          formatScore currentMatch.w currentMatch.l currentMatch.comment⟩
        [child1, child2]
termination_by roundDepth currentMatch.round
decreasing_by
  · have hp := List.find?_some hw
    simp only [prevMatchPred, Bool.and_eq_true, beq_iff_eq] at hp
    rw [hp.1]
    exact roundPrecedence_lt hcr
  · have hp := List.find?_some hl
    simp only [prevMatchPred, Bool.and_eq_true, beq_iff_eq] at hp
    rw [hp.1]
    exact roundPrecedence_lt hcr

/-- The BYE leaf emitted when a side has no previous match. -/
def byeNode (playerMap : List (String × Player)) (childRound : Round) (pid : String) :
    BracketNode :=
  .mk (lookupPlayerName playerMap pid)
    ⟨childRound, lookupPlayerName playerMap pid, "BYE", "BYE"⟩ []

/-- One side of a bracket node: the subtree of the first match at
`childRound` won by `pid`, or a BYE leaf when there is none. -/
def sideNode (childRound : Round) (pid : String) (ms : List Match)
    (playerMap : List (String × Player)) : BracketNode :=
  match ms.find? (prevMatchPred childRound pid) with
  | some prev => findChildrenForMatch prev ms playerMap
  | none => byeNode playerMap childRound pid

/-- The node emitted for an actual match, with the given children. -/
def matchNode (m : Match) (playerMap : List (String × Player))
    (children : List BracketNode) : BracketNode :=
  .mk (lookupPlayerName playerMap m.winnerId ++ " d. " ++ lookupPlayerName playerMap m.loserId)
    ⟨m.round, lookupPlayerName playerMap m.winnerId, lookupPlayerName playerMap m.loserId,
      formatScore m.w m.l m.comment⟩ children

mutual
/-- Depth of a bracket tree, counted in edges (a leaf has depth 0). -/
def BracketNode.depth : BracketNode → Nat
  | .mk _ _ cs => depthList cs

def depthList : List BracketNode → Nat
  | [] => 0
  | c :: cs => max (c.depth + 1) (depthList cs)
end

/-! ## Display-Name Augmenter (`addCommonNames`) -/

/-- The static formal-name → common-name table of `addCommonNames.ts`. -/
def nameMap : List (String × String) := [
  ("Brisbane International", "Brisbane International"),
  ("Hong Kong Tennis Open", "Hong Kong Open"),
  ("Adelaide International", "Adelaide International"),
  ("ASB Classic", "Auckland Open"),
  ("Australian Open", "Australian Open"),
  ("Open Sud de France", "Montpellier Open"),
  ("Dallas Open", "Dallas Open"),
  ("ABN AMRO World Tennis Tournament", "Rotterdam Open"),
  ("Argentina Open", "Buenos Aires Open"),
  ("Delray Beach Open", "Delray Beach Open"),
  ("Open 13", "Marseille Open"),
  ("Qatar Exxon Mobil Open", "Doha Open"),
  ("Rio Open", "Rio Open"),
  ("Abierto Mexicano", "Acapulco Open"),
  ("Dubai Tennis Championships", "Dubai Open"),
  ("Chile Open", "Santiago Open"),
  ("BNP Paribas Open", "Indian Wells"),
  ("Miami Open", "Miami Open"),
  ("Tiriac Open", "Bucharest Open"),
  ("U.S. Men's Clay Court Championships", "Houston Open"),
  ("Grand Prix Hassan II", "Marrakech Open"),
  ("Monte Carlo Masters", "Monte Carlo Masters"),
  ("Barcelona Open", "Barcelona Open"),
  ("BMW Open", "Munich Open"),
  ("Mutua Madrid Open", "Madrid Open"),
  ("Internazionali BNL d'Italia", "Italian Open"),
  ("Geneva Open", "Geneva Open"),
  ("Hamburg Open", "Hamburg Open"),
  ("French Open", "French Open"),
  ("Stuttgart Open", "Stuttgart Open"),
  ("Rosmalen Grass Court Championships", "Rosmalen Open"),
  ("Halle Open", "Halle Open"),
  ("Queen's Club Championships", "Queen's Club"),
  ("Eastbourne International", "Eastbourne International"),
  ("Mallorca Championships", "Mallorca Open"),
  ("Wimbledon", "Wimbledon"),
  ("Nordea Open", "Swedish Open"),
  ("Suisse Open Gstaad", "Gstaad Open"),
  ("Los Cabos Open", "Los Cabos Open"),
  ("Generali Open", "Kitzbühel Open"),
  ("Croatia Open", "Umag Open"),
  ("Citi Open", "Washington Open"),
  ("Canadian Open", "Canadian Open"),
  ("Western & Southern Financial Group Masters", "Cincinnati Masters"),
  ("Winston-Salem Open at Wake Forest University", "Winston-Salem Open"),
  ("US Open", "US Open"),
  ("Chengdu Open", "Chengdu Open"),
  ("Hangzhou Open", "Hangzhou Open"),
  ("China Open", "China Open"),
  ("Japan Open Tennis Championships", "Japan Open"),
  ("Shanghai Masters", "Shanghai Masters"),
  ("Almaty Open", "Almaty Open"),
  ("European Open", "Antwerp Open"),
  ("Nordic Open", "Stockholm Open"),
  ("Swiss Indoors", "Basel Open"),
  ("Vienna Open", "Vienna Open"),
  ("BNP Paribas Masters", "Paris Masters")]

/-- The per-tournament body of the `tournaments.map` in `addCommonNames`:
set/overwrite `commonName` when the formal name is in the table, remove it
when it is not. -/
def applyCommonName (t : Tournament) : Tournament :=
  match nameMap.lookup t.name with
  | some cn => { t with commonName := some cn }
  | none => { t with commonName := none }

/-- The Display-Name Augmenter pass over the persisted tournament list. -/
def addCommonNames (tournaments : List Tournament) : List Tournament :=
  tournaments.map applyCommonName

/-! ## Ingestion (`ingest`) -/

/-- A raw CSV row (the columns `ingest` reads; `BestOf` stands for the
`Best of` column). All fields are the raw cell strings. -/
structure CSVRow where
  ATP : String := ""
  Location : String := ""
  Tournament : String := ""
  Date : String := ""
  Series : String := ""
  Court : String := ""
  Surface : String := ""
  Round : String := ""
  BestOf : String := ""
  Winner : String := ""
  Loser : String := ""
  WRank : String := ""
  LRank : String := ""
  WPts : String := ""
  LPts : String := ""
  W1 : String := ""
  L1 : String := ""
  W2 : String := ""
  L2 : String := ""
  W3 : String := ""
  L3 : String := ""
  W4 : String := ""
  L4 : String := ""
  W5 : String := ""
  L5 : String := ""
  Wsets : String := ""
  Lsets : String := ""
  Comment : String := ""
  deriving DecidableEq, Repr

/-- The consolidated mutable state of `ingest` (shared across all input
batches of one run). -/
structure IngestState where
  playersMap : List (String × Player)
  playerIDs : List (String × Nat)
  tournamentsMap : List (String × Tournament)
  allMatches : List Match
  allDerived : List Derived
  deriving DecidableEq, Repr

def initState : IngestState := ⟨[], [], [], [], []⟩

/-- The create-or-reuse player step of `ingest` (applied to the winner name
and then the loser name of each row). -/
def addPlayer (pm : List (String × Player)) (ids : List (String × Nat)) (name : String) :
    List (String × Player) × List (String × Nat) :=
  if (pm.lookup name).isSome then (pm, ids)
  else
    let r := createPlayerID name ids
    (pm ++ [(name, ⟨r.1, name⟩)], r.2)

/-- The set-score loop of `ingest` over the slots `(W1,L1) .. (W5,L5)`:
push both when both present, coerce the missing side to 0 when exactly one
is present, and break at the first slot where both are absent. -/
def buildSets : List (Option Int × Option Int) → List Int × List Int
  | [] => ([], [])
  | (some ws, some ls) :: rest =>
      let r := buildSets rest
      (ws :: r.1, ls :: r.2)
  | (some ws, none) :: rest =>
      let r := buildSets rest
      (ws :: r.1, 0 :: r.2)
  | (none, some ls) :: rest =>
      let r := buildSets rest
      (0 :: r.1, ls :: r.2)
  | (none, none) :: _ => ([], [])

/-- The five normalized set-score slots of a row. -/
def rowSlots (row : CSVRow) : List (Option Int × Option Int) :=
  [(normalizeNumber row.W1, normalizeNumber row.L1),
   (normalizeNumber row.W2, normalizeNumber row.L2),
   (normalizeNumber row.W3, normalizeNumber row.L3),
   (normalizeNumber row.W4, normalizeNumber row.L4),
   (normalizeNumber row.W5, normalizeNumber row.L5)]

/-- Junk tournament standing in for the non-null assertion `!` (never read
on the reachable paths). -/
def dummyTournament : Tournament :=
  ⟨"", 0, "", none, "", .ATP250, .Outdoor, .Hard⟩

/-- Processing of one CSV row: the body of the row loop of `ingest`.
`.ok` with an unchanged `allMatches` models a `continue` (row skipped);
`.error` models an uncaught exception (thrown by `parseDate`). -/
def processRow (st : IngestState) (row : CSVRow) : Except Unit IngestState :=
  if row.Tournament = "" ∨ row.Winner = "" ∨ row.Loser = "" ∨ row.Date = "" then .ok st
  else
    match parseDate row.Date with
    | .error e => .error e
    | .ok date =>
      if date = "" then .ok st
      else
        let year : Int := (parseIntJS (takeChars date 4)).getD 0
        let round := normalizeRound row.Round
        let bestOf : Int := if normalizeNumber row.BestOf = some 5 then 5 else 3
        match normalizeValue row.Winner, normalizeValue row.Loser with
        | some winnerName, some loserName =>
          let p1 := addPlayer st.playersMap st.playerIDs winnerName
          let p2 := addPlayer p1.1 p1.2 loserName
          let st := { st with playersMap := p2.1, playerIDs := p2.2 }
          let winner := (st.playersMap.lookup winnerName).getD ⟨"", ""⟩
          let loser := (st.playersMap.lookup loserName).getD ⟨"", ""⟩
          let tournamentName := (normalizeValue row.Tournament).getD "Unknown Tournament"
          let location := (normalizeValue row.Location).getD "Unknown Location"
          let tournamentKey := toString year ++ "-" ++ tournamentName ++ "-" ++ location
          let st :=
            if (st.tournamentsMap.lookup tournamentKey).isSome then st
            else { st with tournamentsMap := st.tournamentsMap ++
                [(tournamentKey,
                  { id := createTournamentID year tournamentName location
                    year := year
                    name := tournamentName
                    commonName := none
                    location := location
                    series := normalizeSeries row.Series
                    court := normalizeCourt row.Court
                    surface := normalizeSurface row.Surface })] }
          let tournament := (st.tournamentsMap.lookup tournamentKey).getD dummyTournament
          let matchId := createMatchID tournament.id date round winner.id loser.id
          let wl := buildSets (rowSlots row)
          let wsets := normalizeNumber row.Wsets
          let lsets := normalizeNumber row.Lsets
          let comment := normalizeValue row.Comment
          if wl.1.length = 0 ∧ wsets = some 0 ∧ lsets = some 0 ∧
              comment ≠ some "Retired" ∧ comment ≠ some "Walkover" then .ok st
          else
            let theMatch : Match :=
              { id := matchId
                tournamentId := tournament.id
                date := date
                round := round
                bestOf := bestOf
                winnerId := winner.id
                loserId := loser.id
                wRank := normalizeNumber row.WRank
                lRank := normalizeNumber row.LRank
                wPts := normalizeNumber row.WPts
                lPts := normalizeNumber row.LPts
                w := wl.1
                l := wl.2
                wsets := wsets.getD 0
                lsets := lsets.getD 0
                comment := comment }
            .ok { st with allMatches := st.allMatches ++ [theMatch],
                          allDerived := st.allDerived ++ [computeDerived theMatch] }
        | _, _ => .ok st

/-- The row loop of `ingest` over a list of rows (all batches
concatenated, sharing one state). -/
def ingestRows (st : IngestState) : List CSVRow → Except Unit IngestState
  | [] => .ok st
  | row :: rest =>
    match processRow st row with
    | .error e => .error e
    | .ok st' => ingestRows st' rest

/-- The player-registry fold: the sequence of names encountered by `ingest`
(winner then loser of each surviving row), applied to the shared maps. -/
def runPlayers (ns : List String) : List (String × Player) × List (String × Nat) :=
  ns.foldl (fun s n => addPlayer s.1 s.2 n) ([], [])

/-! ## Predicates and sample data used by the theorems -/

/-- Every node of a bracket tree has zero or exactly two children. -/
inductive IsBinary : BracketNode → Prop where
  | leaf (n : String) (a : BracketAttributes) : IsBinary (.mk n a [])
  | node (n : String) (a : BracketAttributes) (c1 c2 : BracketNode) :
      IsBinary c1 → IsBinary c2 → IsBinary (.mk n a [c1, c2])

/-- Every node of a bracket tree either is a match node, named
`<winnerName> d. <loserName>`, or is a BYE leaf, named by the advancing
participant alone. -/
inductive GoodNames : BracketNode → Prop where
  | node (n : String) (a : BracketAttributes) (cs : List BracketNode) :
      (n = a.winnerName ++ " d. " ++ a.loserName ∨
        (n = a.winnerName ∧ a.loserName = "BYE" ∧ a.score = "BYE" ∧ cs = [])) →
      (∀ c ∈ cs, GoodNames c) → GoodNames (.mk n a cs)

/-- A minimal completed match used as concrete test input. -/
def mkMatch (r : Round) (wid lid : String) : Match :=
  { id := "", tournamentId := "t", date := "2024-01-01", round := r, bestOf := 3,
    winnerId := wid, loserId := lid, wRank := none, lRank := none, wPts := none,
    lPts := none, w := [6, 6], l := [4, 4], wsets := 2, lsets := 0, comment := none }

def finalAB : Match := mkMatch .F "a" "b"

def semiAC : Match := mkMatch .SF "a" "c"

def semiBD : Match := mkMatch .SF "b" "d"

/-- The spec scenario: a tournament with a Final and two Semifinals but no
Quarterfinal matches. -/
def scenarioMatches : List Match := [finalAB, semiAC, semiBD]

def scenarioPlayers : List (String × Player) :=
  [("a", ⟨"a", "Alice"⟩), ("b", ⟨"b", "Bob"⟩), ("c", ⟨"c", "Carl"⟩), ("d", ⟨"d", "Dana"⟩)]

end ATP

namespace ATP

/-! ## Bracket lemmas -/

/-- Unfolding characterization of `findChildrenForMatch`. -/
theorem findChildren_eq (m : Match) (ms : List Match) (pm : List (String × Player)) :
    findChildrenForMatch m ms pm =
      match roundPrecedence m.round with
      | none => matchNode m pm []
      | some childRound =>
          matchNode m pm
            [sideNode childRound m.winnerId ms pm, sideNode childRound m.loserId ms pm] := by
  rw [findChildrenForMatch]
  cases hcr : roundPrecedence m.round with
  | none => rfl
  | some childRound =>
    simp only [matchNode, sideNode, byeNode]
    split
    next a hwf =>
      rw [hwf]
      split
      next c hlf => rw [hlf]
      next hlf => rw [hlf]
    next hwf =>
      rw [hwf]
      split
      next c hlf => rw [hlf]
      next hlf => rw [hlf]

theorem round_of_find_some {cr : Round} {pid : String} {ms : List Match} {w : Match}
    (h : ms.find? (prevMatchPred cr pid) = some w) : w.round = cr := by
  have hp := List.find?_some h
  simp only [prevMatchPred, Bool.and_eq_true, beq_iff_eq] at hp
  exact hp.1

theorem findChildren_bound (n : Nat) :
    ∀ (m : Match) (ms : List Match) (pm : List (String × Player)),
      roundDepth m.round ≤ n →
      IsBinary (findChildrenForMatch m ms pm) ∧
        (findChildrenForMatch m ms pm).depth ≤ roundDepth m.round := by
  induction n with
  | zero =>
    intro m ms pm hn
    rw [findChildren_eq]
    cases hcr : roundPrecedence m.round with
    | none => exact ⟨.leaf _ _, by simp [matchNode, BracketNode.depth, depthList]⟩
    | some childRound =>
      exact absurd (Nat.lt_of_lt_of_le (roundPrecedence_lt hcr) hn) (Nat.not_lt_zero _)
  | succ k ih =>
    intro m ms pm hn
    rw [findChildren_eq]
    cases hcr : roundPrecedence m.round with
    | none => exact ⟨.leaf _ _, by simp [matchNode, BracketNode.depth, depthList]⟩
    | some childRound =>
      have hlt := roundPrecedence_lt hcr
      have side : ∀ pid, IsBinary (sideNode childRound pid ms pm) ∧
          (sideNode childRound pid ms pm).depth ≤ roundDepth childRound := by
        intro pid
        unfold sideNode
        cases hf : ms.find? (prevMatchPred childRound pid) with
        | some w =>
          have hr := round_of_find_some hf
          have := ih w ms pm (by rw [hr]; omega)
          exact ⟨this.1, by rw [← hr]; exact this.2⟩
        | none =>
          exact ⟨.leaf _ _, by simp [byeNode, BracketNode.depth, depthList]⟩
      refine ⟨.node _ _ _ _ (side m.winnerId).1 (side m.loserId).1, ?_⟩
      simp only [matchNode, BracketNode.depth, depthList]
      have h1 := (side m.winnerId).2
      have h2 := (side m.loserId).2
      omega

theorem roundDepth_le_nine (r : Round) : roundDepth r ≤ 9 := by
  cases r <;> simp [roundDepth]

theorem findChildren_goodNames (n : Nat) :
    ∀ (m : Match) (ms : List Match) (pm : List (String × Player)),
      roundDepth m.round ≤ n → GoodNames (findChildrenForMatch m ms pm) := by
  induction n with
  | zero =>
    intro m ms pm hn
    rw [findChildren_eq]
    cases hcr : roundPrecedence m.round with
    | none =>
      exact .node _ _ _ (Or.inl (by simp [matchNode])) (by simp [matchNode])
    | some childRound =>
      exact absurd (Nat.lt_of_lt_of_le (roundPrecedence_lt hcr) hn) (Nat.not_lt_zero _)
  | succ k ih =>
    intro m ms pm hn
    rw [findChildren_eq]
    cases hcr : roundPrecedence m.round with
    | none =>
      exact .node _ _ _ (Or.inl (by simp [matchNode])) (by simp [matchNode])
    | some childRound =>
      have hlt := roundPrecedence_lt hcr
      have side : ∀ pid, GoodNames (sideNode childRound pid ms pm) := by
        intro pid
        unfold sideNode
        cases hf : ms.find? (prevMatchPred childRound pid) with
        | some w =>
          have hr := round_of_find_some hf
          exact ih w ms pm (by rw [hr]; omega)
        | none =>
          exact .node _ _ _ (Or.inr (by simp [byeNode])) (by simp [byeNode])
      refine .node _ _ _ (Or.inl (by simp [matchNode])) ?_
      intro c hc
      simp only [matchNode, List.mem_cons, List.not_mem_nil, or_false] at hc
      rcases hc with h | h <;> rw [h] <;> exact side _

/-! ## Claim theorems: bracket reconstruction -/

/-- C1: every tree emitted by the Bracket Reconstructor is binary (every
node has zero or exactly two children), the children of a non-leaf node are
exactly the winner-side subtree followed by the loser-side subtree, and the
depth is at most 9 — for every input match list and player registry. -/
theorem bracket_binary_children_depth (m : Match) (ms : List Match)
    (pm : List (String × Player)) :
    IsBinary (findChildrenForMatch m ms pm) ∧
    (findChildrenForMatch m ms pm).depth ≤ 9 ∧
    (∀ cr, roundPrecedence m.round = some cr →
      (findChildrenForMatch m ms pm).children =
        [sideNode cr m.winnerId ms pm, sideNode cr m.loserId ms pm]) := by
  obtain ⟨hbin, hdep⟩ := findChildren_bound (roundDepth m.round) m ms pm le_rfl
  refine ⟨hbin, hdep.trans (roundDepth_le_nine _), ?_⟩
  intro cr hcr
  rw [findChildren_eq, hcr]
  simp [matchNode, BracketNode.children]

/-- C1 witness: the properties instantiated at a concrete tournament. -/
theorem bracket_binary_children_depth_witness :
    IsBinary (findChildrenForMatch finalAB scenarioMatches scenarioPlayers) ∧
    (findChildrenForMatch finalAB scenarioMatches scenarioPlayers).depth ≤ 9 ∧
    (findChildrenForMatch finalAB scenarioMatches scenarioPlayers).children =
      [sideNode .SF finalAB.winnerId scenarioMatches scenarioPlayers,
       sideNode .SF finalAB.loserId scenarioMatches scenarioPlayers] :=
  ⟨(bracket_binary_children_depth finalAB scenarioMatches scenarioPlayers).1,
   (bracket_binary_children_depth finalAB scenarioMatches scenarioPlayers).2.1,
   (bracket_binary_children_depth finalAB scenarioMatches scenarioPlayers).2.2 .SF rfl⟩

/-- C2: when a side of a match has no qualifying previous match, that side
of the emitted node is a BYE leaf `{round: childRound, winnerName: the
participant, loserName: 'BYE', score: 'BYE'}` with no children, and the
node itself is still expanded (its children list is not empty). -/
theorem bye_leaf_sides (m : Match) (ms : List Match) (pm : List (String × Player))
    (cr : Round) (hcr : roundPrecedence m.round = some cr) :
    (ms.find? (prevMatchPred cr m.winnerId) = none →
      (findChildrenForMatch m ms pm).children.get? 0 = some (byeNode pm cr m.winnerId)) ∧
    (ms.find? (prevMatchPred cr m.loserId) = none →
      (findChildrenForMatch m ms pm).children.get? 1 = some (byeNode pm cr m.loserId)) ∧
    (findChildrenForMatch m ms pm).children ≠ [] := by
  rw [findChildren_eq, hcr]
  refine ⟨fun hw => ?_, fun hl => ?_, by simp [matchNode, BracketNode.children]⟩
  · simp [matchNode, BracketNode.children, sideNode, hw]
  · simp [matchNode, BracketNode.children, sideNode, hl]

/-- C2 witness: the spec scenario — a Final and two Semifinals with no
Quarterfinal matches; the first Semifinal still expands, each side into a
BYE leaf at round QF. -/
theorem bye_leaf_sides_witness :
    (findChildrenForMatch semiAC scenarioMatches scenarioPlayers).children.get? 0 =
      some (byeNode scenarioPlayers .QF semiAC.winnerId) ∧
    (findChildrenForMatch semiAC scenarioMatches scenarioPlayers).children.get? 1 =
      some (byeNode scenarioPlayers .QF semiAC.loserId) ∧
    (findChildrenForMatch semiAC scenarioMatches scenarioPlayers).children ≠ [] :=
  ⟨(bye_leaf_sides semiAC scenarioMatches scenarioPlayers .QF rfl).1 (by decide),
   (bye_leaf_sides semiAC scenarioMatches scenarioPlayers .QF rfl).2.1 (by decide),
   (bye_leaf_sides semiAC scenarioMatches scenarioPlayers .QF rfl).2.2⟩

/-- C10 counterexample: in the tree of a tournament whose only recorded
match is the Final, the winner-side child is a BYE leaf whose `name` is the
advancing player's name alone — not `'<winnerName> d. <loserName>'`. -/
theorem bracket_names_cex :
    ∃ c, (findChildrenForMatch finalAB [finalAB] scenarioPlayers).children.get? 0 = some c ∧
      c.name ≠ c.attributes.winnerName ++ " d. " ++ c.attributes.loserName := by
  refine ⟨byeNode scenarioPlayers .SF "a", ?_, by decide⟩
  rw [findChildren_eq]
  rfl

/-- C10 (amended): bracket reconstruction is total in the player registry —
an unknown `winnerId`/`loserId` resolves to the name `'Unknown'`; every
node emitted for an actual match is named `'<winnerName> d. <loserName>'`,
while a BYE node is named by the advancing participant alone. -/
theorem bracket_names (m : Match) (ms : List Match) (pm : List (String × Player)) :
    (pm.lookup m.winnerId = none →
      (findChildrenForMatch m ms pm).attributes.winnerName = "Unknown") ∧
    (pm.lookup m.loserId = none →
      (findChildrenForMatch m ms pm).attributes.loserName = "Unknown") ∧
    GoodNames (findChildrenForMatch m ms pm) := by
  refine ⟨fun hw => ?_, fun hl => ?_,
    findChildren_goodNames (roundDepth m.round) m ms pm le_rfl⟩
  · rw [findChildren_eq]
    cases roundPrecedence m.round <;>
      simp [matchNode, BracketNode.attributes, lookupPlayerName, hw]
  · rw [findChildren_eq]
    cases roundPrecedence m.round <;>
      simp [matchNode, BracketNode.attributes, lookupPlayerName, hl]

/-- C10 witness: with an empty player registry the root node's winner and
loser names fall back to `'Unknown'`, and the tree's names are shaped as
described. -/
theorem bracket_names_witness :
    (findChildrenForMatch finalAB scenarioMatches []).attributes.winnerName = "Unknown" ∧
    (findChildrenForMatch finalAB scenarioMatches []).attributes.loserName = "Unknown" ∧
    GoodNames (findChildrenForMatch finalAB scenarioMatches []) :=
  ⟨(bracket_names finalAB scenarioMatches []).1 rfl,
   (bracket_names finalAB scenarioMatches []).2.1 rfl,
   (bracket_names finalAB scenarioMatches []).2.2⟩

end ATP

namespace ATP

/-! ## Claim theorems: identifier hashing (C7) -/

theorem pow31 : (2 : Int) ^ 31 = 2147483648 := by norm_num

theorem pow32 : (2 : Int) ^ 32 = 4294967296 := by norm_num

theorem hashStep_eq (h : Int) (c : Nat) : hashStep h c = toInt32 (31 * h + c) := by
  unfold hashStep toInt32
  rw [pow31, pow32]
  omega

/-- C7: both ID generators emit their type tag followed by the absolute
value of the signed 32-bit hash obtained by folding
`hash = hash*31 + charCode` (wrapped to 32 bits at each step, starting from
0) over the composite key; equal hashes give equal IDs, and collisions
exist (`"Aa"`/`"BB"`). -/
theorem id_hash_spec :
    (∀ s : String,
      hashString s = s.toList.foldl (fun h c => toInt32 (31 * h + (c.toNat : Int))) 0) ∧
    (∀ (y : Int) (t loc : String),
      createTournamentID y t loc =
        "t" ++ toString (hashString (toString y ++ "-" ++ t ++ "-" ++ loc)).natAbs) ∧
    (∀ (tid date : String) (r : Round) (wid lid : String),
      createMatchID tid date r wid lid =
        "m" ++ toString (hashString (tid ++ "-" ++ date ++ "-" ++ r.toStr ++ "-" ++
          wid ++ "-" ++ lid)).natAbs) ∧
    (∀ s1 s2 : String, hashString s1 = hashString s2 →
      "t" ++ toString (hashString s1).natAbs = "t" ++ toString (hashString s2).natAbs) ∧
    ("Aa" ≠ "BB" ∧ hashString "Aa" = hashString "BB") := by
  refine ⟨fun s => ?_, fun _ _ _ => rfl, fun _ _ _ _ _ => rfl, fun s1 s2 h => by rw [h],
    by decide, by decide⟩
  unfold hashString
  congr 1
  funext h c
  exact hashStep_eq h c.toNat

/-- C7 witness: the colliding keys `"Aa"` and `"BB"` produce the same tag
plus absolute hash value. -/
theorem id_hash_spec_witness :
    "t" ++ toString (hashString "Aa").natAbs = "t" ++ toString (hashString "BB").natAbs :=
  id_hash_spec.2.2.2.1 "Aa" "BB" (by decide)

/-! ## Claim theorems: Display-Name Augmenter (C8) -/

/-- C8: the Augmenter sets/overwrites `commonName` exactly when the formal
name is a key of the static table and removes it otherwise (pointwise,
`commonName` becomes exactly the table lookup, all other fields unchanged),
and applying the pass twice equals applying it once. -/
theorem commonNames_pass :
    (∀ ts : List Tournament, addCommonNames (addCommonNames ts) = addCommonNames ts) ∧
    (∀ t : Tournament, applyCommonName t = { t with commonName := nameMap.lookup t.name }) := by
  have hpt : ∀ t : Tournament, applyCommonName t = { t with commonName := nameMap.lookup t.name } := by
    intro t
    unfold applyCommonName
    cases h : nameMap.lookup t.name <;> simp [h]
  refine ⟨fun ts => ?_, hpt⟩
  unfold addCommonNames
  rw [List.map_map]
  apply List.map_congr_left
  intro t _
  show applyCommonName (applyCommonName t) = applyCommonName t
  rw [hpt (applyCommonName t), hpt t]

/-! ## Claim theorems: upset flag (C5) -/

/-- A match whose winner carries the (falsy) rank 0. -/
def rank0Match : Match := { mkMatch .F "a" "b" with wRank := some 0, lRank := some 5 }

/-- An upset: the loser was ranked better (2) than the winner (5). -/
def upsetMatch : Match := { mkMatch .F "a" "b" with wRank := some 5, lRank := some 2 }

/-- C5 counterexample: a match with both ranks known (`0` and `5`) for
which `upset` is nevertheless absent — rank `0` is falsy, so the claim that
`upset` is defined exactly when both ranks are known fails. -/
theorem upset_cex :
    rank0Match.wRank = some 0 ∧ rank0Match.lRank = some 5 ∧
      (computeDerived rank0Match).upset = none := by decide

/-- C5 (amended): `upset` is defined exactly when both ranks are known and
nonzero (JS truthiness), and then equals `lRank < wRank`; it is absent when
either rank is unknown or zero. -/
theorem upset_def (m : Match) :
    (∀ wr lr : Int, m.wRank = some wr → m.lRank = some lr → wr ≠ 0 → lr ≠ 0 →
      (computeDerived m).upset = some (decide (lr < wr))) ∧
    ((m.wRank = none ∨ m.wRank = some 0 ∨ m.lRank = none ∨ m.lRank = some 0) →
      (computeDerived m).upset = none) := by
  constructor
  · intro wr lr hw hl hw0 hl0
    simp [computeDerived, truthyNum, hw, hl, hw0, hl0]
  · intro h
    rcases h with h | h | h | h <;> simp [computeDerived, truthyNum, h]

/-- C5 witness: a concrete upset (loser ranked 2, winner ranked 5) and a
concrete absent case (winner rank 0). -/
theorem upset_def_witness :
    (computeDerived upsetMatch).upset = some true ∧
      (computeDerived rank0Match).upset = none :=
  ⟨by have := (upset_def upsetMatch).1 5 2 rfl rfl (by decide) (by decide); simpa using this,
   (upset_def rank0Match).2 (Or.inr (Or.inl rfl))⟩

end ATP

namespace ATP

/-! ## Claim theorems: set-score building and Match invariant (C9), row
discarding (C3) -/

deriving instance DecidableEq for Except

theorem buildSets_take (slots : List (Option Int × Option Int)) :
    (buildSets slots).1 =
      (slots.take (slots.findIdx fun p => p.1.isNone && p.2.isNone)).map (fun p => p.1.getD 0) ∧
    (buildSets slots).2 =
      (slots.take (slots.findIdx fun p => p.1.isNone && p.2.isNone)).map (fun p => p.2.getD 0) := by
  induction slots with
  | nil => simp [buildSets]
  | cons p rest ih =>
    rcases p with ⟨w, l⟩
    rcases w with _ | wv <;> rcases l with _ | lv <;>
      simp [buildSets, List.findIdx_cons, ih.1, ih.2]

theorem buildSets_len (slots : List (Option Int × Option Int)) :
    (buildSets slots).1.length = (buildSets slots).2.length ∧
      (buildSets slots).1.length ≤ slots.length := by
  induction slots with
  | nil => simp [buildSets]
  | cons p rest ih =>
    rcases p with ⟨w, l⟩
    rcases w with _ | wv <;> rcases l with _ | lv <;>
      simp [buildSets, ih.1] <;> omega

theorem processRow_matches {st st' : IngestState} {row : CSVRow}
    (h : processRow st row = .ok st') :
    ∀ m ∈ st'.allMatches, m ∈ st.allMatches ∨ (m.w.length = m.l.length ∧ m.w.length ≤ 5) := by
  unfold processRow at h
  split at h
  · cases h
    exact fun m hm => .inl hm
  · split at h
    · exact absurd h (by simp)
    · split at h
      · cases h
        exact fun m hm => .inl hm
      · dsimp only at h
        split at h
        · split at h
          · obtain rfl := Except.ok.inj h
            intro m hm
            left
            revert hm
            split <;> exact fun hm => hm
          · obtain rfl := Except.ok.inj h
            intro m hm
            rw [List.mem_append] at hm
            rcases hm with hm | hm
            · left
              revert hm
              split <;> exact fun hm => hm
            · right
              rw [List.mem_singleton] at hm
              subst hm
              have h1 := buildSets_len (rowSlots row)
              refine ⟨h1.1, h1.2.trans (by simp [rowSlots])⟩
        · cases h
          exact fun m hm => .inl hm

theorem ingestRows_matches {rows : List CSVRow} :
    ∀ {st st' : IngestState}, ingestRows st rows = .ok st' →
      ∀ m ∈ st'.allMatches, m ∈ st.allMatches ∨ (m.w.length = m.l.length ∧ m.w.length ≤ 5) := by
  induction rows with
  | nil =>
    intro st st' h m hm
    cases h
    exact .inl hm
  | cons row rest ih =>
    intro st st' h m hm
    unfold ingestRows at h
    split at h
    · exact absurd h (by simp)
    · rcases ih h m hm with hmem | hlen
      · next st1 hst1 => exact processRow_matches hst1 m hmem
      · exact .inr hlen

/-- C9: the set-score builder scans the slots in order, stopping at the
first slot where both sides are absent (the result is the map of the prefix
before that slot, a half-present slot contributing 0 for its missing
side); consequently every Match the pipeline produces has `w` and `l` of
equal length, at most 5. -/
theorem set_scores_invariant :
    (∀ slots : List (Option Int × Option Int),
      (buildSets slots).1 =
        (slots.take (slots.findIdx fun p => p.1.isNone && p.2.isNone)).map (fun p => p.1.getD 0) ∧
      (buildSets slots).2 =
        (slots.take (slots.findIdx fun p => p.1.isNone && p.2.isNone)).map (fun p => p.2.getD 0)) ∧
    (∀ (rows : List CSVRow) (st : IngestState) (m : Match),
      ingestRows initState rows = .ok st → m ∈ st.allMatches →
      m.w.length = m.l.length ∧ m.w.length ≤ 5) := by
  refine ⟨buildSets_take, fun rows st m h hm => ?_⟩
  rcases ingestRows_matches h m hm with hmem | hlen
  · exact absurd hmem (by simp [initState])
  · exact hlen

/-- A row with a half-present second set slot (models a retirement
mid-set). -/
def c9row : CSVRow :=
  { Tournament := "X", Location := "Y", Date := "01/02/24", Round := "1st Round",
    Winner := "John Smith", Loser := "Jane Doe",
    W1 := "6", L1 := "4", W2 := "7", L2 := "", Wsets := "2", Lsets := "0" }

def c9state : IngestState := ((ingestRows initState [c9row]).toOption).getD initState

def c9match : Match := c9state.allMatches.headD (mkMatch .F "" "")

/-- C9 witness: the match built from `c9row` has equal-length score arrays
of length at most 5. -/
theorem set_scores_invariant_witness :
    c9match.w.length = c9match.l.length ∧ c9match.w.length ≤ 5 :=
  set_scores_invariant.2 [c9row] c9state c9match (by decide) (by decide)

/-- A zero-set row with set counts 1–1 and no comment. -/
def c3cexRow : CSVRow :=
  { Tournament := "X", Location := "Y", Date := "01/02/24", Round := "1st Round",
    Winner := "John Smith", Loser := "Jane Doe", Wsets := "1", Lsets := "1" }

/-- A zero-set row with set counts 0–0 and no comment. -/
def c3row : CSVRow :=
  { Tournament := "X", Location := "Y", Date := "01/02/24", Round := "1st Round",
    Winner := "John Smith", Loser := "Jane Doe", Wsets := "0", Lsets := "0" }

/-- C3 counterexample: a row with all scanned set slots empty whose set
counts are 1–1 (so the claim's keep-condition — `wsets==0 && lsets==0` and
a Retired/Walkover comment — fails) is nevertheless kept: the code only
discards when both counts equal 0 and the comment is not
Retired/Walkover. -/
theorem zero_set_discard_cex :
    (buildSets (rowSlots c3cexRow)).1 = [] ∧
    ¬(normalizeNumber c3cexRow.Wsets = some 0 ∧ normalizeNumber c3cexRow.Lsets = some 0 ∧
      (normalizeValue c3cexRow.Comment = some "Retired" ∨
       normalizeValue c3cexRow.Comment = some "Walkover")) ∧
    (processRow initState c3cexRow).map (fun s => s.allMatches.length) = .ok 1 := by
  decide

/-- C3 (amended): a row that reaches the match-assembly step with zero
recorded sets is discarded exactly when both set counts parse to 0 and the
comment is neither `'Retired'` nor `'Walkover'`; a discarded row is
skipped silently (the loop receives `.ok` and only `allMatches` is left
unchanged — no abort). -/
theorem zero_set_discard (st : IngestState) (row : CSVRow) (d wn ln : String)
    (hT : row.Tournament ≠ "") (hW : row.Winner ≠ "") (hL : row.Loser ≠ "")
    (hD : row.Date ≠ "") (hdate : parseDate row.Date = .ok d) (hne : d ≠ "")
    (hw : normalizeValue row.Winner = some wn) (hl : normalizeValue row.Loser = some ln)
    (hz : (buildSets (rowSlots row)).1 = []) :
    ∃ st', processRow st row = .ok st' ∧
      (st'.allMatches = st.allMatches ↔
        (normalizeNumber row.Wsets = some 0 ∧ normalizeNumber row.Lsets = some 0 ∧
         normalizeValue row.Comment ≠ some "Retired" ∧
         normalizeValue row.Comment ≠ some "Walkover")) := by
  unfold processRow
  rw [if_neg (by simp [hT, hW, hL, hD])]
  rw [hdate]
  dsimp only
  rw [if_neg hne]
  rw [hw, hl]
  dsimp only
  by_cases hc : (normalizeNumber row.Wsets = some 0 ∧ normalizeNumber row.Lsets = some 0 ∧
      normalizeValue row.Comment ≠ some "Retired" ∧ normalizeValue row.Comment ≠ some "Walkover")
  · rw [if_pos ⟨by rw [hz]; rfl, hc.1, hc.2.1, hc.2.2.1, hc.2.2.2⟩]
    refine ⟨_, rfl, iff_of_true ?_ hc⟩
    split <;> rfl
  · rw [if_neg (fun hfull => hc ⟨hfull.2.1, hfull.2.2.1, hfull.2.2.2.1, hfull.2.2.2.2⟩)]
    refine ⟨_, rfl, iff_of_false ?_ hc⟩
    intro heq
    revert heq
    split <;> (intro heq; have := congrArg List.length heq; simp at this)

/-- C3 witness: the 0–0 commentless row `c3row` is processed without
abort and discarded. -/
theorem zero_set_discard_witness :
    ∃ st', processRow initState c3row = .ok st' ∧
      (st'.allMatches = initState.allMatches ↔
        (normalizeNumber c3row.Wsets = some 0 ∧ normalizeNumber c3row.Lsets = some 0 ∧
         normalizeValue c3row.Comment ≠ some "Retired" ∧
         normalizeValue c3row.Comment ≠ some "Walkover")) :=
  zero_set_discard initState c3row "2024-01-02" "John Smith" "Jane Doe" (by decide) (by decide)
    (by decide) (by decide) (by decide) (by decide) (by decide) (by decide) (by decide)

end ATP

namespace ATP

def countSlug (pm : List (String × Player)) (s : String) : Nat :=
  (pm.filter fun e => slugify e.1 == s).length

def idsForSlug (pm : List (String × Player)) (s : String) : List String :=
  (pm.filter fun e => slugify e.1 == s).map fun e => e.2.id

def expectedIds (s : String) (n : Nat) : List String :=
  (List.range n).map fun i => if i = 0 then s else s ++ "-" ++ toString i

def PlayersInv (pm : List (String × Player)) (ids : List (String × Nat)) : Prop :=
  ∀ s, (ids.lookup s = if countSlug pm s = 0 then none else some (countSlug pm s - 1)) ∧
       idsForSlug pm s = expectedIds s (countSlug pm s)

theorem lookup_setEntry (l : List (String × Nat)) (k k' : String) (v : Nat) :
    (setEntry l k v).lookup k' = if k' = k then some v else l.lookup k' := by
  induction l with
  | nil =>
    by_cases hk : k' = k
    · simp [setEntry, List.lookup, hk]
    · simp [setEntry, List.lookup, hk, beq_false_of_ne hk]
  | cons e rest ih =>
    rcases e with ⟨a, b⟩
    by_cases hak : a = k
    · subst hak
      by_cases hk' : k' = a
      · simp [setEntry, List.lookup, hk']
      · simp [setEntry, List.lookup, hk', beq_false_of_ne hk']
    · by_cases hk' : k' = a
      · subst hk'
        simp [setEntry, hak, List.lookup, Ne.symm hak]
      · simp [setEntry, hak, List.lookup, beq_false_of_ne hk', hk', ih]

theorem countSlug_append (pm : List (String × Player)) (e : String × Player) (s : String) :
    countSlug (pm ++ [e]) s = countSlug pm s + (if slugify e.1 = s then 1 else 0) := by
  simp only [countSlug, List.filter_append]
  split <;> rename_i h <;> simp_all [List.length_append, beq_iff_eq]

theorem idsForSlug_append (pm : List (String × Player)) (e : String × Player) (s : String) :
    idsForSlug (pm ++ [e]) s = idsForSlug pm s ++ (if slugify e.1 = s then [e.2.id] else []) := by
  simp only [idsForSlug, List.filter_append]
  split <;> rename_i h <;> simp_all [beq_iff_eq]

theorem expectedIds_succ (s : String) (n : Nat) :
    expectedIds s (n + 1) = expectedIds s n ++ [if n = 0 then s else s ++ "-" ++ toString n] := by
  simp [expectedIds, List.range_succ]

theorem addPlayer_inv {pm : List (String × Player)} {ids : List (String × Nat)} {name : String}
    (h : PlayersInv pm ids) :
    PlayersInv (addPlayer pm ids name).1 (addPlayer pm ids name).2 := by
  unfold addPlayer
  by_cases hmem : (pm.lookup name).isSome
  · simpa [hmem] using h
  · simp only [hmem, Bool.false_eq_true, if_false]
    cases hlook : ids.lookup (slugify name) with
    | none =>
      have h0 : countSlug pm (slugify name) = 0 := by
        have hx := (h (slugify name)).1
        rw [hlook] at hx
        by_contra hne
        rw [if_neg hne] at hx
        exact Option.noConfusion hx
      simp only [createPlayerID, hlook]
      intro s
      by_cases hs : s = slugify name
      · subst hs
        constructor
        · simp [lookup_setEntry, countSlug_append, h0]
        · have hids := (h (slugify name)).2
          rw [h0] at hids
          simp [idsForSlug_append, countSlug_append, h0, hids, expectedIds, List.range_succ]
      · have hns : ¬(slugify name = s) := fun hx => hs hx.symm
        constructor
        · simp only [lookup_setEntry, countSlug_append, hs, hns, if_false, Nat.add_zero]
          exact (h s).1
        · simp only [idsForSlug_append, countSlug_append, hns, if_false, Nat.add_zero,
            List.append_nil]
          exact (h s).2
    | some c =>
      have hcount : countSlug pm (slugify name) = c + 1 := by
        have hx := (h (slugify name)).1
        rw [hlook] at hx
        by_cases h0 : countSlug pm (slugify name) = 0
        · rw [if_pos h0] at hx
          exact Option.noConfusion hx
        · rw [if_neg h0] at hx
          have := Option.some.inj hx
          omega
      simp only [createPlayerID, hlook]
      intro s
      by_cases hs : s = slugify name
      · subst hs
        constructor
        · simp [lookup_setEntry, countSlug_append, hcount]
        · have hids := (h (slugify name)).2
          rw [hcount] at hids
          simp [idsForSlug_append, countSlug_append, hcount, hids, expectedIds_succ]
      · have hns : ¬(slugify name = s) := fun hx => hs hx.symm
        constructor
        · simp only [lookup_setEntry, countSlug_append, hs, hns, if_false, Nat.add_zero]
          exact (h s).1
        · simp only [idsForSlug_append, countSlug_append, hns, if_false, Nat.add_zero,
            List.append_nil]
          exact (h s).2

theorem playersInv_init : PlayersInv [] [] := by
  intro s
  simp [countSlug, idsForSlug, expectedIds, List.lookup]

theorem runPlayers_inv (ns : List String) :
    PlayersInv (runPlayers ns).1 (runPlayers ns).2 := by
  unfold runPlayers
  have main : ∀ (l : List String) (st : List (String × Player) × List (String × Nat)),
      PlayersInv st.1 st.2 →
      PlayersInv (l.foldl (fun s n => addPlayer s.1 s.2 n) st).1
        (l.foldl (fun s n => addPlayer s.1 s.2 n) st).2 := by
    intro l
    induction l with
    | nil => exact fun st h => h
    | cons n rest ih =>
      intro st h
      exact ih _ (addPlayer_inv h)
  exact main ns ([], []) playersInv_init


/-- C6: player-ID assignment is a function of the sequence of distinct
normalized names encountered — a name already in the registry is a no-op
(a repeated name never creates a second Player), and the ids assigned to
the players sharing a slug are the bare slug followed by `slug-1`,
`slug-2`, … in encounter order (the per-slug counter increases
monotonically across all batches of one run and is never reused). -/
theorem player_id_assignment (ns : List String) (name s : String) :
    ((runPlayers ns).1.lookup name ≠ none →
      addPlayer (runPlayers ns).1 (runPlayers ns).2 name = runPlayers ns) ∧
    idsForSlug (runPlayers ns).1 s = expectedIds s (countSlug (runPlayers ns).1 s) := by
  refine ⟨fun hmem => ?_, (runPlayers_inv ns s).2⟩
  unfold addPlayer
  rw [if_pos (by simp [Option.isSome_iff_ne_none, hmem])]

/-- The name sequence of the C6 witness: two distinct names sharing the
slug `john-smith`, with a repeat of the first. -/
def c6names : List String := ["John Smith", "John  Smith", "John Smith"]

/-- C6 witness: on `c6names`, re-adding a seen name is a no-op and the ids
for slug `john-smith` are `[john-smith, john-smith-1]`, as the counter
prescribes. -/
theorem player_id_assignment_witness :
    addPlayer (runPlayers c6names).1 (runPlayers c6names).2 "John Smith" = runPlayers c6names ∧
    idsForSlug (runPlayers c6names).1 "john-smith" =
      expectedIds "john-smith" (countSlug (runPlayers c6names).1 "john-smith") :=
  ⟨(player_id_assignment c6names "John Smith" "john-smith").1 (by decide),
   (player_id_assignment c6names "John Smith" "john-smith").2⟩

end ATP

namespace ATP

/-! ## Claim theorems: parseDate (C4) -/



theorem digit_bounds {c : Char} (h : c.isDigit = true) : 48 ≤ c.toNat ∧ c.toNat ≤ 57 := by
  simp only [Char.isDigit, Bool.and_eq_true, decide_eq_true_eq] at h
  obtain ⟨h1, h2⟩ := h
  exact ⟨h1, h2⟩

theorem digit_not_ws {c : Char} (h : c.isDigit = true) : c.isWhitespace = false := by
  obtain ⟨h1, h2⟩ := digit_bounds h
  by_contra hws
  rw [Bool.not_eq_false] at hws
  simp only [Char.isWhitespace, Bool.or_eq_true, decide_eq_true_eq] at hws
  rcases hws with ((h3 | h3) | h3) | h3 <;> subst h3 <;> revert h1 h2 <;> decide

theorem digit_ne_signs {c : Char} (h : c.isDigit = true) : c ≠ '-' ∧ c ≠ '+' := by
  obtain ⟨h1, h2⟩ := digit_bounds h
  constructor <;> (intro he; subst he; revert h1 h2; decide)

theorem takeWhile_all {l : List Char} (h : ∀ c ∈ l, c.isDigit = true) :
    l.takeWhile Char.isDigit = l := by
  induction l with
  | nil => rfl
  | cons c cs ih =>
    rw [List.takeWhile_cons, if_pos (h c (.head _)), ih (fun x hx => h x (.tail _ hx))]

theorem foldl_digits_lt (l : List Char) :
    ∀ a : Nat, (∀ c ∈ l, c.isDigit = true) →
      l.foldl (fun a c => a * 10 + (c.toNat - 48)) a < (a + 1) * 10 ^ l.length := by
  induction l with
  | nil => intro a _; simp
  | cons c cs ih =>
    intro a h
    have hd := digit_bounds (h c (.head _))
    have step := ih (a * 10 + (c.toNat - 48)) (fun x hx => h x (.tail _ hx))
    calc (c :: cs).foldl (fun a c => a * 10 + (c.toNat - 48)) a
        = cs.foldl (fun a c => a * 10 + (c.toNat - 48)) (a * 10 + (c.toNat - 48)) := rfl
      _ < (a * 10 + (c.toNat - 48) + 1) * 10 ^ cs.length := step
      _ ≤ ((a + 1) * 10) * 10 ^ cs.length := Nat.mul_le_mul_right _ (by omega)
      _ = (a + 1) * 10 ^ (cs.length + 1) := by rw [pow_succ]; ring

theorem parseIntJS_digits {s : String} (h0 : s.data ≠ [])
    (hd : ∀ c ∈ s.data, c.isDigit = true) :
    ∃ v : Nat, parseIntJS s = some (v : Int) ∧ v < 10 ^ s.data.length := by
  unfold parseIntJS
  rcases hlist : s.data with _ | ⟨c, cs⟩
  · exact absurd hlist h0
  · have hcd := hd c (hlist ▸ .head _)
    have hsg := digit_ne_signs hcd
    have hnw := digit_not_ws hcd
    rw [List.dropWhile_cons, hnw]
    simp only [Bool.false_eq_true, if_false, List.headD_cons]
    rw [if_neg hsg.1, if_neg (not_or.mpr ⟨hsg.1, hsg.2⟩)]
    rw [takeWhile_all (fun x hx => hd x (hlist ▸ hx))]
    rw [if_neg (by simp)]
    refine ⟨(c :: cs).foldl (fun a x => a * 10 + (x.toNat - 48)) 0, by simp, ?_⟩
    simpa using foldl_digits_lt (c :: cs) 0 (fun x hx => hd x (hlist ▸ hx))



theorem isoDate_ne_empty (y m d : Int) : isoDate y m d ≠ "" := by
  intro h
  have hdata := congrArg String.data h
  simp only [isoDate, String.data_append] at hdata
  have := congrArg List.length hdata
  simp at this

theorem daysFromCivil_bound {y m : Int} (hy1 : -5 ≤ y) (hy2 : y ≤ 20000)
    (hm1 : 1 ≤ m) (hm2 : m ≤ 12) :
    -1000000 ≤ daysFromCivil y m 1 ∧ daysFromCivil y m 1 ≤ 8000000 := by
  have e400 : ∀ a : Int, a.fdiv 400 = a / 400 := fun a => Int.fdiv_eq_ediv a (by norm_num)
  have e5 : ∀ a : Int, a.fdiv 5 = a / 5 := fun a => Int.fdiv_eq_ediv a (by norm_num)
  have e4 : ∀ a : Int, a.fdiv 4 = a / 4 := fun a => Int.fdiv_eq_ediv a (by norm_num)
  have e100 : ∀ a : Int, a.fdiv 100 = a / 100 := fun a => Int.fdiv_eq_ediv a (by norm_num)
  unfold daysFromCivil
  simp only [e400, e5, e4, e100]
  split <;> (try split) <;> omega



theorem jsDateToISO_some {y m d : Int} (hy1 : 0 ≤ y) (hy2 : y ≤ 9999)
    (hm1 : -1 ≤ m) (hm2 : m ≤ 98) (hd1 : 0 ≤ d) (hd2 : d ≤ 99) :
    ∃ iso, jsDateToISO (some y) (some m) (some d) = some iso ∧ iso ≠ "" := by
  unfold jsDateToISO
  dsimp only
  have e12 : m.fdiv 12 = m / 12 := Int.fdiv_eq_ediv m (by norm_num)
  have hfd : -1 ≤ m / 12 ∧ m / 12 ≤ 8 := by omega
  have hmn : 0 ≤ m.emod 12 ∧ m.emod 12 < 12 := ⟨Int.emod_nonneg m (by norm_num), Int.emod_lt_of_pos m (by norm_num)⟩
  have hyr : (if 0 ≤ y ∧ y ≤ 99 then 1900 + y else y) ≤ 9999 ∧
      0 ≤ (if 0 ≤ y ∧ y ≤ 99 then 1900 + y else y) := by
    split <;> omega
  have hdays := daysFromCivil_bound (y := (if 0 ≤ y ∧ y ≤ 99 then 1900 + y else y) + m.fdiv 12)
    (m := m.emod 12 + 1) (by omega) (by omega) (by omega) (by omega)
  rw [if_pos (by omega)]
  exact ⟨_, rfl, isoDate_ne_empty _ _ _⟩



theorem parseDate_dash (s n y mo d : String)
    (h1 : normalizeValue s = some n) (h2 : jsSplit n '-' = [y, mo, d])
    (h3 : strContainsChar n '-' = true) (h4 : y.length = 4)
    (hy : ∀ c ∈ y.data, c.isDigit = true)
    (hmo1 : mo.data ≠ []) (hmo2 : ∀ c ∈ mo.data, c.isDigit = true) (hmo3 : mo.length ≤ 2)
    (hd1 : d.data ≠ []) (hd2 : ∀ c ∈ d.data, c.isDigit = true) (hd3 : d.length ≤ 2) :
    ∃ r, parseDate s = .ok r ∧ r ≠ "" := by
  have hylen : y.data.length = 4 := h4
  have hmlen : mo.data.length ≤ 2 := hmo3
  have hdlen : d.data.length ≤ 2 := hd3
  obtain ⟨yv, hyv, hyb⟩ := parseIntJS_digits (fun he => by rw [he] at hylen; simp at hylen) hy
  obtain ⟨mv, hmv, hmb⟩ := parseIntJS_digits hmo1 hmo2
  obtain ⟨dv, hdv, hdb⟩ := parseIntJS_digits hd1 hd2
  have hyb' : (yv : Int) ≤ 9999 := by
    rw [hylen] at hyb
    norm_num at hyb
    omega
  have hmb' : (mv : Int) ≤ 99 := by
    have : (10 : Nat) ^ mo.data.length ≤ 10 ^ 2 := Nat.pow_le_pow_right (by norm_num) hmlen
    omega
  have hdb' : (dv : Int) ≤ 99 := by
    have : (10 : Nat) ^ d.data.length ≤ 10 ^ 2 := Nat.pow_le_pow_right (by norm_num) hdlen
    omega
  unfold parseDate
  rw [h1]
  dsimp only
  rw [h2]
  rw [if_pos ⟨h3, h4⟩]
  simp only [List.getElem?_cons_succ, List.getElem?_cons_zero, parseIntJSOpt]
  have hyv' : parseIntJS ([y, mo, d].headD "") = some (yv : Int) := hyv
  rw [hyv', hmv, hdv]
  simp only [Option.map_some']
  obtain ⟨iso, hiso, hne⟩ := jsDateToISO_some (y := (yv : Int)) (m := (mv : Int) - 1)
    (d := (dv : Int)) (by positivity) hyb' (by omega) (by omega) (by positivity) hdb'
  rw [hiso]
  exact ⟨iso, rfl, hne⟩



theorem parseDate_slash (s n y mo d : String)
    (h1 : normalizeValue s = some n) (h2 : jsSplit n '/' = [mo, d, y])
    (h3 : strContainsChar n '-' = false)
    (h4 : y.length = 2 ∨ y.length = 4) (hy : ∀ c ∈ y.data, c.isDigit = true)
    (hmo1 : mo.data ≠ []) (hmo2 : ∀ c ∈ mo.data, c.isDigit = true) (hmo3 : mo.length ≤ 2)
    (hd1 : d.data ≠ []) (hd2 : ∀ c ∈ d.data, c.isDigit = true) (hd3 : d.length ≤ 2) :
    ∃ r, parseDate s = .ok r ∧ r ≠ "" := by
  have h20 : ("20" : String).data = ['2', '0'] := rfl
  have hfyd : ∀ c ∈ (if y.length = 2 then "20" ++ y else y).data, c.isDigit = true := by
    split
    · intro c hc
      rw [String.data_append] at hc
      rcases List.mem_append.mp hc with hcl | hcr
      · rw [h20] at hcl
        have : c = '2' ∨ c = '0' := by simpa using hcl
        rcases this with rfl | rfl <;> decide
      · exact hy c hcr
    · exact hy
  have hfylen : (if y.length = 2 then "20" ++ y else y).data.length = 4 := by
    split
    next hl =>
      rw [String.data_append, h20]
      have : y.data.length = 2 := hl
      simp [this]
    next hl =>
      rcases h4 with h4 | h4
      · exact absurd h4 hl
      · exact h4
  have hfyne : (if y.length = 2 then "20" ++ y else y).data ≠ [] := by
    intro he
    rw [he] at hfylen
    simp at hfylen
  obtain ⟨yv, hyv, hyb⟩ := parseIntJS_digits hfyne hfyd
  obtain ⟨mv, hmv, hmb⟩ := parseIntJS_digits hmo1 hmo2
  obtain ⟨dv, hdv, hdb⟩ := parseIntJS_digits hd1 hd2
  have hyb' : (yv : Int) ≤ 9999 := by
    rw [hfylen] at hyb
    norm_num at hyb
    omega
  have hmb' : (mv : Int) ≤ 99 := by
    have hmlen : mo.data.length ≤ 2 := hmo3
    have : (10 : Nat) ^ mo.data.length ≤ 10 ^ 2 := Nat.pow_le_pow_right (by norm_num) hmlen
    omega
  have hdb' : (dv : Int) ≤ 99 := by
    have hdlen : d.data.length ≤ 2 := hd3
    have : (10 : Nat) ^ d.data.length ≤ 10 ^ 2 := Nat.pow_le_pow_right (by norm_num) hdlen
    omega
  unfold parseDate
  rw [h1]
  dsimp only
  rw [if_neg (fun hc => by rw [h3] at hc; exact Bool.noConfusion hc.1)]
  rw [h2]
  rw [if_pos (by simp)]
  simp only [List.getElem?_cons_succ, List.getElem?_cons_zero, Option.getD_some]
  have hyv' : parseIntJS (if ([mo, d, y].getD 2 "").length = 2
      then "20" ++ [mo, d, y].getD 2 "" else [mo, d, y].getD 2 "") = some (yv : Int) := hyv
  have hmv' : parseIntJS ([mo, d, y].headD "") = some (mv : Int) := hmv
  rw [hmv', hdv, hyv]
  simp only [Option.map_some']
  obtain ⟨iso, hiso, hne⟩ := jsDateToISO_some (y := (yv : Int)) (m := (mv : Int) - 1)
    (d := (dv : Int)) (by positivity) hyb' (by omega) (by omega) (by positivity) hdb'
  rw [hiso]
  exact ⟨iso, rfl, hne⟩



theorem parseDate_absent_none (s : String) (h : normalizeValue s = none) :
    parseDate s = .ok "" := by
  unfold parseDate
  rw [h]

theorem parseDate_absent_fallthrough (s n : String) (h1 : normalizeValue s = some n)
    (h2 : ¬(strContainsChar n '-' = true ∧ ((jsSplit n '-').headD "").length = 4))
    (h3 : (jsSplit n '/').length ≠ 3) : parseDate s = .ok "" := by
  unfold parseDate
  rw [h1]
  dsimp only
  rw [if_neg h2, if_neg h3]

/-- C4 (amended): `parseDate` returns a normalized (nonempty) date for
all-digit `YYYY-MM-DD` dash shapes and `M/D/YY`–`MM/DD/YYYY` slash shapes
(a 2-digit year being read as 20xx), and returns the absent value `''`
(after a logged warning, without throwing) when the value normalizes to
absent or matches neither branch dispatch; inputs that enter a branch with
non-numeric components throw instead (see the counterexample). -/
theorem parseDate_shapes (s n y mo d : String) :
    (normalizeValue s = none → parseDate s = .ok "") ∧
    (normalizeValue s = some n →
      ¬(strContainsChar n '-' = true ∧ ((jsSplit n '-').headD "").length = 4) →
      (jsSplit n '/').length ≠ 3 → parseDate s = .ok "") ∧
    (normalizeValue s = some n → jsSplit n '-' = [y, mo, d] →
      strContainsChar n '-' = true → y.length = 4 →
      (∀ c ∈ y.data, c.isDigit = true) →
      mo.data ≠ [] → (∀ c ∈ mo.data, c.isDigit = true) → mo.length ≤ 2 →
      d.data ≠ [] → (∀ c ∈ d.data, c.isDigit = true) → d.length ≤ 2 →
      ∃ r, parseDate s = .ok r ∧ r ≠ "") ∧
    (normalizeValue s = some n → jsSplit n '/' = [mo, d, y] →
      strContainsChar n '-' = false →
      (y.length = 2 ∨ y.length = 4) → (∀ c ∈ y.data, c.isDigit = true) →
      mo.data ≠ [] → (∀ c ∈ mo.data, c.isDigit = true) → mo.length ≤ 2 →
      d.data ≠ [] → (∀ c ∈ d.data, c.isDigit = true) → d.length ≤ 2 →
      ∃ r, parseDate s = .ok r ∧ r ≠ "") :=
  ⟨parseDate_absent_none s,
   parseDate_absent_fallthrough s n,
   fun h1 h2 h3 h4 hy hmo1 hmo2 hmo3 hd1 hd2 hd3 =>
     parseDate_dash s n y mo d h1 h2 h3 h4 hy hmo1 hmo2 hmo3 hd1 hd2 hd3,
   fun h1 h2 h3 h4 hy hmo1 hmo2 hmo3 hd1 hd2 hd3 =>
     parseDate_slash s n y mo d h1 h2 h3 h4 hy hmo1 hmo2 hmo3 hd1 hd2 hd3⟩

/-- C4 counterexample: `'aaaa-bb-cc'` is not of either accepted shape, so
per the claim it should log and return absent; instead the dash branch is
entered (first dash component has length 4), `parseInt` yields NaN, and
`toISOString()` on the Invalid Date throws a `RangeError` — `parseDate`
does throw. -/
theorem parseDate_throws_cex :
    parseDate "aaaa-bb-cc" = .error () := by decide

/-- C4 witness: a dash-shape date, a slash-shape date with 2-digit year,
and an unrecognized input returning absent. -/
theorem parseDate_shapes_witness :
    (∃ r, parseDate "2024-03-15" = .ok r ∧ r ≠ "") ∧
    (∃ r, parseDate "3/15/24" = .ok r ∧ r ≠ "") ∧
    parseDate "garbage" = .ok "" :=
  ⟨(parseDate_shapes "2024-03-15" "2024-03-15" "2024" "03" "15").2.2.1 (by decide) (by decide)
      (by decide) (by decide) (by decide) (by decide) (by decide) (by decide) (by decide)
      (by decide) (by decide),
   (parseDate_shapes "3/15/24" "3/15/24" "24" "3" "15").2.2.2 (by decide) (by decide)
      (by decide) (by decide) (by decide) (by decide) (by decide) (by decide) (by decide)
      (by decide) (by decide),
   (parseDate_shapes "garbage" "garbage" "" "" "").2.1 (by decide) (by decide) (by decide)⟩

end ATP
